import Mathlib

/-!
# Verification of the `connect-redis-session` store adapter

Shallow embedding of the repository's core (`src/lib/serializer.ts`,
`src/lib/compare.ts`, `src/lib/adapter.ts` and the two Lua scripts
`set.lua` / `touch.lua`), together with proofs settling the frozen
claims about the natural-language specification.

Modelling conventions:
* JavaScript values are modelled by the inductive `JSVal`; numbers are
  whole integers (the claims restrict temporal data to whole
  milliseconds, and record payloads are JSON data).  JS objects are
  association lists in insertion order; JS guarantees keys are distinct,
  captured by the `wf` predicate where proofs need it.  Arrays are
  indexable objects with index keys, exactly how `deepEqual` in
  `compare.ts` treats them.
* A JS `Date` is modelled by `JsDate`, a box around its epoch-millisecond
  value (`getTime`).
* The Redis state of a single session key is a `KeyState`: an optional
  stored value plus an optional absolute expiry time in milliseconds.
  An expired key is modelled as `value = none`; "within the grace
  period" is modelled by the tombstone still being present.
* The stored value domain `RedisValue` distinguishes the literal string
  `'TOMBSTONE'` (`tomb`) from a serialized record (`data w`); a
  serialized JSON record is a nonempty string that is never equal to the
  sentinel (the spec notes record payloads must never serialize to the
  sentinel literal).
-/

/-- A JavaScript/JSON value as stored in session records. -/
inductive JSVal : Type where
  | null : JSVal
  | boolean : Bool → JSVal
  | number : Int → JSVal
  | string : String → JSVal
  | object : List (String × JSVal) → JSVal

/-- Keys of a JS object / association list, in insertion order. -/
def fieldKeys {α : Type} (l : List (String × α)) : List String :=
  l.map Prod.fst

/-- Property access `b[prop]` guarded by `b.hasOwnProperty(prop)`:
the first binding of the key, if any. -/
def lookupKey {α : Type} : List (String × α) → String → Option α
  | [], _ => none
  | (k, v) :: rest, key => if k = key then some v else lookupKey rest key

mutual

/-- `deepEqual` from `src/lib/compare.ts`.  Primitives compare by value
(JS `===`); two objects compare by equal key counts and by every key of
`a` existing in `b` with deeply-equal value.  (The JS `a === b` shortcut
on two references to one object is subsumed by the recursive branch.) -/
def deepEqual : JSVal → JSVal → Bool
  | JSVal.object a, JSVal.object b => Nat.beq a.length b.length && deepEqualFields a b
  | JSVal.null, JSVal.null => true
  | JSVal.boolean x, JSVal.boolean y => x == y
  | JSVal.number x, JSVal.number y => x == y
  | JSVal.string x, JSVal.string y => x == y
  | _, _ => false

/-- The `for (const prop in a)` loop of `deepEqual`: every key of `a`
must exist in `b` (`hasOwnProperty`) with a deeply-equal value. -/
def deepEqualFields : List (String × JSVal) → List (String × JSVal) → Bool
  | [], _ => true
  | (k, v) :: rest, b =>
    (match lookupKey b k with
     | some w => deepEqual v w
     | none => false) && deepEqualFields rest b

end

mutual

/-- Well-formedness of a modelled JS value: object keys are distinct at
every level (guaranteed for real JS objects). -/
def wf : JSVal → Bool
  | JSVal.object l => nodupKeys l && wfFields l
  | _ => true

/-- Key distinctness of one object level. -/
def nodupKeys : List (String × JSVal) → Bool
  | [] => true
  | (k, _) :: rest => (lookupKey rest k).isNone && nodupKeys rest

/-- Well-formedness of every value of an object level. -/
def wfFields : List (String × JSVal) → Bool
  | [] => true
  | (_, v) :: rest => wf v && wfFields rest

end

/-- A JavaScript `Date`, identified by its epoch-millisecond value.  The
claims restrict temporal fields to whole milliseconds, where
`new Date(ms).getTime() = ms` holds exactly. -/
structure JsDate : Type where
  time : Int

/-- `Date.prototype.getTime`. -/
def JsDate.getTime (d : JsDate) : Int := d.time

/-- The `cookie` field of a session record: an optional `expires` date
plus the remaining (JSON-safe) cookie fields. -/
structure SessionCookie : Type where
  expires : Option JsDate
  rest : List (String × JSVal)

/-- A session record (`session.SessionData`): the `cookie`, the
adapter-owned optional `lastModified` stamp, and the remaining
application fields.  An absent optional key is identified with a key
whose value is `undefined`, exactly as `JSON.stringify` does. -/
structure SessionData : Type where
  cookie : SessionCookie
  lastModified : Option JsDate
  rest : List (String × JSVal)

/-- Wire form of the cookie, with `expires` as an epoch-millisecond
number (dropped when absent). -/
structure WireCookie : Type where
  expires : Option Int
  rest : List (String × JSVal)

/-- Wire form of a record as produced by `serializer.stringify`:
temporal fields are epoch-millisecond numbers. -/
structure WireSession : Type where
  cookie : WireCookie
  lastModified : Option Int
  rest : List (String × JSVal)

/-- `serializer.stringify` from `src/lib/serializer.ts`: translate the
temporal fields to numbers via `getTime` and pass every other field
through (`JSON.stringify` itself is the identity on the wire tree).
Pure / side-effect-free by construction. -/
def serializer.stringify (value : SessionData) : WireSession :=
  { cookie := { expires := value.cookie.expires.map JsDate.getTime
                rest := value.cookie.rest }
    lastModified := value.lastModified.map JsDate.getTime
    rest := value.rest }

/-- `serializer.parse` from `src/lib/serializer.ts`: rebuild the
temporal fields with `new Date(ms)` and pass every other field through.
Pure / side-effect-free by construction. -/
def serializer.parse (text : WireSession) : SessionData :=
  { cookie := { expires := text.cookie.expires.map (fun ms => ⟨ms⟩)
                rest := text.cookie.rest }
    lastModified := text.lastModified.map (fun ms => ⟨ms⟩)
    rest := text.rest }

/-- A value stored at a session key: the `'TOMBSTONE'` sentinel string
or a serialized record (a nonempty JSON string distinct from the
sentinel). -/
inductive RedisValue : Type where
  | tomb : RedisValue
  | data : WireSession → RedisValue

/-- Redis state of one session key: the stored value (if the key is
present and unexpired) and its absolute expiry in epoch milliseconds. -/
structure KeyState : Type where
  value : Option RedisValue
  expiresAt : Option Int

/-- `SET key value PX ttl` (returns the status string `'OK'`). -/
def redisSet (_st : KeyState) (v : RedisValue) (pxMillis now : Int) : String × KeyState :=
  ("OK", { value := some v, expiresAt := some (now + pxMillis) })

/-- `DEL key` (returns the number of keys removed). -/
def redisDel (st : KeyState) : Nat × KeyState :=
  (if st.value.isSome then 1 else 0, { value := none, expiresAt := none })

/-- `PEXPIRE key ttl` (returns 1 when the key exists, else 0). -/
def redisPExpire (st : KeyState) (pxMillis now : Int) : Nat × KeyState :=
  if st.value.isSome then (1, { st with expiresAt := some (now + pxMillis) }) else (0, st)

/-- `set.lua`: read the current value; if it is the tombstone sentinel,
refuse (return nil) without writing; otherwise `SET key ARGV[1] PX
ARGV[2]` and return its `'OK'`. -/
def setLua (st : KeyState) (newValue : WireSession) (ttlMillis now : Int) :
    Option String × KeyState :=
  match st.value with
  | some RedisValue.tomb => (none, st)
  | _ =>
    let (ok, st') := redisSet st (RedisValue.data newValue) ttlMillis now
    (some ok, st')

/-- `touch.lua`: read the current value; if it is the tombstone
sentinel, return nil; otherwise `PEXPIRE key ARGV[1]` and return its
0/1 reply.  (For an absent key the Lua `GET` reply is `false`, so the
script's `value == nil` test never fires and `PEXPIRE` replies 0, which
the adapter treats as refusal.) -/
def touchLua (st : KeyState) (ttlMillis now : Int) : Option Nat × KeyState :=
  match st.value with
  | some RedisValue.tomb => (none, st)
  | _ =>
    let (n, st') := redisPExpire st ttlMillis now
    (some n, st')

/-- JS truthiness of the touch script's reply (`nil` and `0` are falsy). -/
def jsTruthyNum : Option Nat → Bool
  | some n => n != 0
  | none => false

/-- Configuration of `RedisStoreAdapter` (constructor defaults from
`src/lib/adapter.ts`); `ttlSeconds = none` models the option value
`false` ("reject missing expiry"). -/
structure AdapterConfig : Type where
  prefixStr : String := "sessions:"
  scanCount : Nat := 100
  ttlSeconds : Option Int := some 86400
  concurrencyGraceSeconds : Int := 300

/-- `RedisStoreAdapter.checkTtlMilliseconds`: `cookie.expires` minus the
current time when set, otherwise `(ttlSeconds || 0) * 1000`. -/
def RedisStoreAdapter.checkTtlMilliseconds (A : AdapterConfig) (now : Int)
    (sessionData : SessionData) : Int :=
  match sessionData.cookie.expires with
  | some e => e.getTime - now
  | none => (A.ttlSeconds.getD 0) * 1000

/-- `RedisStoreAdapter.destroy`: with `useTombstone`, `SET key
'TOMBSTONE' EX grace` (always `'OK'`, hence `true`); otherwise `DEL
key`, `true` iff one key was deleted. -/
def RedisStoreAdapter.destroy (A : AdapterConfig) (now : Int) (st : KeyState)
    (useTombstone : Bool) : Bool × KeyState :=
  if useTombstone then
    let (ok, st') := redisSet st RedisValue.tomb (A.concurrencyGraceSeconds * 1000) now
    (ok != "", st')
  else
    let (n, st') := redisDel st
    (n == 1, st')

/-- `RedisStoreAdapter.get`: `null` for an absent key or the tombstone
sentinel, otherwise the parsed record. -/
def RedisStoreAdapter.get (st : KeyState) : Option SessionData :=
  match st.value with
  | some (RedisValue.data w) => some (serializer.parse w)
  | _ => none

/-- `RedisStoreAdapter.set`: compute the TTL; if non-positive, destroy
(with tombstone, the default) and return `null`; otherwise stamp
`lastModified = now`, serialize, run `set.lua`, and return `null` on
refusal or the stamped record on success. -/
def RedisStoreAdapter.set (A : AdapterConfig) (now : Int) (st : KeyState)
    (sessionData : SessionData) : Option SessionData × KeyState :=
  let ttlMilliseconds := RedisStoreAdapter.checkTtlMilliseconds A now sessionData
  if ttlMilliseconds ≤ 0 then
    let (_, st') := RedisStoreAdapter.destroy A now st true
    (none, st')
  else
    let stamped := { sessionData with lastModified := some ⟨now⟩ }
    let value := serializer.stringify stamped
    let (result, st') := setLua st value ttlMilliseconds now
    match result with
    | none => (none, st')
    | some _ => (some stamped, st')

/-- The `ttlSeconds` argument of `RedisStoreAdapter.touch`: a raw
duration in seconds or a session record. -/
inductive TouchTtl : Type where
  | seconds : Int → TouchTtl
  | record : SessionData → TouchTtl

/-- `RedisStoreAdapter.touch`: resolve the TTL in milliseconds; if
non-positive, destroy (with tombstone) and return `null`; otherwise run
`touch.lua` and return `new Date(ttlMilliseconds)` on a truthy reply,
otherwise `null`. -/
def RedisStoreAdapter.touch (A : AdapterConfig) (now : Int) (st : KeyState)
    (ttlSeconds : TouchTtl) : Option JsDate × KeyState :=
  let ttlMilliseconds : Int := match ttlSeconds with
    | TouchTtl.seconds n => n * 1000
    | TouchTtl.record d => RedisStoreAdapter.checkTtlMilliseconds A now d
  if ttlMilliseconds ≤ 0 then
    let (_, st') := RedisStoreAdapter.destroy A now st true
    (none, st')
  else
    let (result, st') := touchLua st ttlMilliseconds now
    if jsTruthyNum result then (some ⟨ttlMilliseconds⟩, st') else (none, st')

/-- Result of `RedisStoreAdapter.compare`. -/
structure SessionComparison : Type where
  existing : Option SessionData
  concurrent : Bool
  consistent : Bool

/-- The object `{...sessionData, lastModified: null, cookie: null}`
built by `compare` before calling `deepEqual`: the two adapter-owned
keys are overridden with `null`, the application fields remain. -/
def blankForCompare (d : SessionData) : JSVal :=
  JSVal.object (("cookie", JSVal.null) :: ("lastModified", JSVal.null) :: d.rest)

/-- `RedisStoreAdapter.compare`: fetch the existing record;
`concurrent` iff it exists and the two `lastModified?.getTime()` values
differ; `consistent` iff it exists and the two records with
`lastModified` and `cookie` nulled out are `deepEqual`. -/
def RedisStoreAdapter.compare (st : KeyState) (sessionData : SessionData) :
    SessionComparison :=
  match RedisStoreAdapter.get st with
  | none => { existing := none, concurrent := false, consistent := false }
  | some existing =>
    { existing := some existing
      concurrent := decide (sessionData.lastModified.map JsDate.getTime ≠
        existing.lastModified.map JsDate.getTime)
      consistent := deepEqual (blankForCompare sessionData) (blankForCompare existing) }

/-- A snapshot of the key space under the namespace: the string keys
(as matched by `SCAN ... MATCH prefixStr*`) with their stored values. -/
abbrev Store : Type := List (String × RedisValue)

/-- `MGET keys` against a store snapshot. -/
def mGet (store : Store) (keys : List String) : List (Option RedisValue) :=
  keys.map (lookupKey store)

/-- The JS filter predicate `value && value !== TOMBSTONE` applied to an
`MGET` entry: a stored record is a nonempty string distinct from the
sentinel, hence truthy; `null` and `'TOMBSTONE'` are dropped. -/
def jsLiveVal : Option RedisValue → Bool
  | some (RedisValue.data _) => true
  | _ => false

/-- `sessionId.substring(prefix.length)`: recover an id by stripping the
namespace from a key. -/
def stripNamespace (pre k : String) : String := k.drop pre.length

/-- JS object property assignment `acc[id] = v`: update the first
binding in place or append a new one. -/
def dictInsert {α : Type} : List (String × α) → String → α → List (String × α)
  | [], k, v => [(k, v)]
  | (k', v') :: rest, k, v =>
    if k' = k then (k', v) :: rest else (k', v') :: dictInsert rest k v

/-- One batch of `RedisStoreAdapter.all`, exactly as coded in
`src/lib/adapter.ts` lines 348-355: `MGET` the batch, `filter` out
null/tombstone values, then `reduce` — indexing `keysBatch` with the
index `i` of the **filtered** array. -/
def allBatch (pre : String) (store : Store) (keysBatch : List String) :
    List (String × SessionData) :=
  let values := mGet store keysBatch
  let filtered := values.filter jsLiveVal
  filtered.enum.foldl
    (fun acc iv =>
      match iv.2 with
      | some (RedisValue.data w) =>
        dictInsert acc (stripNamespace pre (keysBatch.getD iv.1 "")) (serializer.parse w)
      | _ => acc)
    []

/-- `RedisStoreAdapter.all`: process every scan batch and merge the
batch dictionaries with `Object.assign` (later batches override). -/
def RedisStoreAdapter.all (pre : String) (store : Store)
    (batches : List (List String)) : List (String × SessionData) :=
  batches.foldl
    (fun acc b => (allBatch pre store b).foldl (fun acc kv => dictInsert acc kv.1 kv.2) acc)
    []

/-- `RedisStoreAdapter.length`: with `estimate`, count every key yielded
by the scan (tombstones included, values never fetched); otherwise
`MGET` each batch and count the values that are present and not the
tombstone sentinel, summing the per-batch counts. -/
def RedisStoreAdapter.length (store : Store) (batches : List (List String))
    (estimate : Bool) : Nat :=
  if estimate then
    batches.flatten.length
  else
    (batches.map (fun b => ((mGet store b).filter jsLiveVal).length)).sum

/-- `getPath a p`: follow a path of object keys down a JS value. -/
def getPath : JSVal → List String → Option JSVal
  | v, [] => some v
  | JSVal.object l, k :: p =>
    match lookupKey l k with
    | some w => getPath w p
    | none => none
  | _, _ :: _ => none

mutual

/-- `setPath a p v'`: replace the value reached by path `p` with `v'`
(leaving `a` unchanged when the path does not exist). -/
def setPath : JSVal → List String → JSVal → JSVal
  | _, [], v' => v'
  | JSVal.object l, k :: p, v' => JSVal.object (setField l k p v')
  | x, _ :: _, _ => x

/-- Replace, inside one object level, the first binding of `k` by its
update along the remaining path. -/
def setField : List (String × JSVal) → String → List String → JSVal →
    List (String × JSVal)
  | [], _, _, _ => []
  | (k', w) :: rest, k, p, v' =>
    if k' = k then (k', setPath w p v') :: rest
    else (k', w) :: setField rest k p v'

end

/-- Remove the first binding of a key from one object level. -/
def eraseKey : List (String × JSVal) → String → List (String × JSVal)
  | [], _ => []
  | (k', v') :: rest, k => if k' = k then rest else (k', v') :: eraseKey rest k

/-- A JS value is a leaf (primitive) when it is not composite. -/
def isPrim : JSVal → Bool
  | JSVal.object _ => false
  | _ => true

/-! ## Basic facts about the single-key operations -/

theorem destroy_tomb_state (A : AdapterConfig) (now : Int) (st : KeyState) :
    (RedisStoreAdapter.destroy A now st true).2 =
      ⟨some RedisValue.tomb, some (now + A.concurrencyGraceSeconds * 1000)⟩ := by
  simp [RedisStoreAdapter.destroy, redisSet]

theorem setLua_tomb (st : KeyState) (v : WireSession) (ttl now : Int)
    (h : st.value = some RedisValue.tomb) : setLua st v ttl now = (none, st) := by
  simp [setLua, h]

theorem setLua_live (st : KeyState) (v : WireSession) (ttl now : Int)
    (h : st.value ≠ some RedisValue.tomb) :
    setLua st v ttl now = (some "OK", ⟨some (RedisValue.data v), some (now + ttl)⟩) := by
  cases hv : st.value with
  | none => simp [setLua, hv, redisSet]
  | some w =>
    cases w with
    | tomb => exact absurd hv h
    | data u => simp [setLua, hv, redisSet]

theorem set_of_ttl_nonpos (A : AdapterConfig) (now : Int) (st : KeyState)
    (d : SessionData) (h : RedisStoreAdapter.checkTtlMilliseconds A now d ≤ 0) :
    RedisStoreAdapter.set A now st d =
      (none, ⟨some RedisValue.tomb, some (now + A.concurrencyGraceSeconds * 1000)⟩) := by
  simp [RedisStoreAdapter.set, h, RedisStoreAdapter.destroy, redisSet]

theorem set_of_tomb (A : AdapterConfig) (now : Int) (st : KeyState) (d : SessionData)
    (h1 : 0 < RedisStoreAdapter.checkTtlMilliseconds A now d)
    (h2 : st.value = some RedisValue.tomb) :
    RedisStoreAdapter.set A now st d = (none, st) := by
  simp [RedisStoreAdapter.set, not_le.mpr h1, setLua_tomb st _ _ _ h2]

theorem set_of_live (A : AdapterConfig) (now : Int) (st : KeyState) (d : SessionData)
    (h1 : 0 < RedisStoreAdapter.checkTtlMilliseconds A now d)
    (h2 : st.value ≠ some RedisValue.tomb) :
    RedisStoreAdapter.set A now st d =
      (some { d with lastModified := some ⟨now⟩ },
       ⟨some (RedisValue.data (serializer.stringify { d with lastModified := some ⟨now⟩ })),
        some (now + RedisStoreAdapter.checkTtlMilliseconds A now d)⟩) := by
  simp [RedisStoreAdapter.set, not_le.mpr h1, setLua_live st _ _ _ h2]

/-! ## Claims C4, C10, C7, C5, C1 -/

/-- C4: for every well-formed record whose temporal fields are
whole-millisecond timestamps (or absent) — the domain of `SessionData` —
`parse(stringify(r))` equals `r` (hence is deep-equal to it); both
functions are pure by construction. -/
theorem claim_C4_serializer_round_trip (r : SessionData) :
    serializer.parse (serializer.stringify r) = r := by
  obtain ⟨⟨e, cr⟩, lm, rest⟩ := r
  cases e <;> cases lm <;> rfl

/-- C10: soft destroy (`useTombstone = true`) returns `true` whatever
the prior state of the key, while hard destroy returns `true` exactly
when some value (record or tombstone) was present, deleting it. -/
theorem claim_C10_destroy_returns (A : AdapterConfig) (now : Int) (st : KeyState) :
    (RedisStoreAdapter.destroy A now st true).1 = true ∧
    (RedisStoreAdapter.destroy A now st true).2.value = some RedisValue.tomb ∧
    ((RedisStoreAdapter.destroy A now st false).1 = true ↔ st.value.isSome = true) ∧
    (RedisStoreAdapter.destroy A now st false).2.value = none := by
  refine ⟨by simp [RedisStoreAdapter.destroy, redisSet], by simp [destroy_tomb_state], ?_, by simp [RedisStoreAdapter.destroy, redisDel]⟩
  cases hv : st.value <;> simp [RedisStoreAdapter.destroy, redisDel, hv]

/-- C7: `checkTtlMilliseconds` returns `expires - now` when the cookie
deadline is set, else `ttlSeconds * 1000`; with the fallback disabled
(`ttlSeconds = false`, modelled as `none`) it returns `0`, which forces
the `set` path to destroy (tombstone) and return `null`. -/
theorem claim_C7_check_ttl (A : AdapterConfig) (now : Int) (d : SessionData)
    (st : KeyState) :
    (∀ e, d.cookie.expires = some e →
      RedisStoreAdapter.checkTtlMilliseconds A now d = e.getTime - now) ∧
    (d.cookie.expires = none →
      RedisStoreAdapter.checkTtlMilliseconds A now d = (A.ttlSeconds.getD 0) * 1000) ∧
    (A.ttlSeconds = none → d.cookie.expires = none →
      RedisStoreAdapter.checkTtlMilliseconds A now d = 0 ∧
      (RedisStoreAdapter.set A now st d).1 = none ∧
      (RedisStoreAdapter.set A now st d).2.value = some RedisValue.tomb) := by
  refine ⟨?_, ?_, ?_⟩
  · intro e he; simp [RedisStoreAdapter.checkTtlMilliseconds, he]
  · intro he; simp [RedisStoreAdapter.checkTtlMilliseconds, he]
  · intro ht he
    have hc : RedisStoreAdapter.checkTtlMilliseconds A now d = 0 := by
      simp [RedisStoreAdapter.checkTtlMilliseconds, he, ht]
    refine ⟨hc, ?_, ?_⟩ <;> rw [set_of_ttl_nonpos A now st d (le_of_eq hc)]

/-- C7 witness: concrete evaluations discharging each hypothesis. -/
theorem claim_C7_check_ttl_checks :
    RedisStoreAdapter.checkTtlMilliseconds ⟨"sessions:", 100, some 60, 300⟩ 5
      ⟨⟨some ⟨7⟩, []⟩, none, []⟩ = 7 - 5 ∧
    RedisStoreAdapter.checkTtlMilliseconds ⟨"sessions:", 100, some 60, 300⟩ 5
      ⟨⟨none, []⟩, none, []⟩ = (some (60 : Int)).getD 0 * 1000 ∧
    RedisStoreAdapter.checkTtlMilliseconds ⟨"sessions:", 100, none, 300⟩ 5
      ⟨⟨none, []⟩, none, []⟩ = 0 ∧
    (RedisStoreAdapter.set ⟨"sessions:", 100, none, 300⟩ 5 ⟨none, none⟩
      ⟨⟨none, []⟩, none, []⟩).1 = none ∧
    (RedisStoreAdapter.set ⟨"sessions:", 100, none, 300⟩ 5 ⟨none, none⟩
      ⟨⟨none, []⟩, none, []⟩).2.value = some RedisValue.tomb :=
  ⟨(claim_C7_check_ttl ⟨"sessions:", 100, some 60, 300⟩ 5 ⟨⟨some ⟨7⟩, []⟩, none, []⟩
      ⟨none, none⟩).1 ⟨7⟩ rfl,
   (claim_C7_check_ttl ⟨"sessions:", 100, some 60, 300⟩ 5 ⟨⟨none, []⟩, none, []⟩
      ⟨none, none⟩).2.1 rfl,
   ((claim_C7_check_ttl ⟨"sessions:", 100, none, 300⟩ 5 ⟨⟨none, []⟩, none, []⟩
      ⟨none, none⟩).2.2 rfl rfl).1,
   ((claim_C7_check_ttl ⟨"sessions:", 100, none, 300⟩ 5 ⟨⟨none, []⟩, none, []⟩
      ⟨none, none⟩).2.2 rfl rfl).2.1,
   ((claim_C7_check_ttl ⟨"sessions:", 100, none, 300⟩ 5 ⟨⟨none, []⟩, none, []⟩
      ⟨none, none⟩).2.2 rfl rfl).2.2⟩

/-- C5: `set` computes the TTL first; when it is non-positive it
destroys the key (tombstone, no record written) and returns `null`;
otherwise it stamps `lastModified = now`, serializes, runs the set
script, returns `null` when the script refuses (tombstoned) leaving
the state untouched, and otherwise returns the stamped record (the
input with only `lastModified` changed) now stored with expiry
`now + ttl`. -/
theorem claim_C5_set_behaviour (A : AdapterConfig) (now : Int) (st : KeyState)
    (d : SessionData) :
    (RedisStoreAdapter.checkTtlMilliseconds A now d ≤ 0 →
      RedisStoreAdapter.set A now st d =
        (none, ⟨some RedisValue.tomb, some (now + A.concurrencyGraceSeconds * 1000)⟩)) ∧
    (0 < RedisStoreAdapter.checkTtlMilliseconds A now d →
      st.value = some RedisValue.tomb →
      RedisStoreAdapter.set A now st d = (none, st)) ∧
    (0 < RedisStoreAdapter.checkTtlMilliseconds A now d →
      st.value ≠ some RedisValue.tomb →
      RedisStoreAdapter.set A now st d =
        (some { d with lastModified := some ⟨now⟩ },
         ⟨some (RedisValue.data (serializer.stringify { d with lastModified := some ⟨now⟩ })),
          some (now + RedisStoreAdapter.checkTtlMilliseconds A now d)⟩)) :=
  ⟨set_of_ttl_nonpos A now st d, set_of_tomb A now st d, set_of_live A now st d⟩

/-- C5 witness: the three branches evaluated at concrete inputs (an
expired record, a write refused by a tombstone, and a live write). -/
theorem claim_C5_set_behaviour_checks :
    RedisStoreAdapter.set ⟨"sessions:", 100, none, 300⟩ 5 ⟨none, none⟩
      ⟨⟨none, []⟩, none, []⟩ = (none, ⟨some RedisValue.tomb, some (5 + 300 * 1000)⟩) ∧
    RedisStoreAdapter.set ⟨"sessions:", 100, some 60, 300⟩ 5
      ⟨some RedisValue.tomb, some 99⟩ ⟨⟨none, []⟩, none, []⟩ =
      (none, ⟨some RedisValue.tomb, some 99⟩) ∧
    RedisStoreAdapter.set ⟨"sessions:", 100, some 60, 300⟩ 5 ⟨none, none⟩
      ⟨⟨none, []⟩, none, []⟩ =
      (some { cookie := ⟨none, []⟩, lastModified := some ⟨5⟩, rest := [] },
       ⟨some (RedisValue.data (serializer.stringify
          { cookie := ⟨none, []⟩, lastModified := some ⟨5⟩, rest := [] })),
        some (5 + RedisStoreAdapter.checkTtlMilliseconds ⟨"sessions:", 100, some 60, 300⟩ 5
          ⟨⟨none, []⟩, none, []⟩)⟩) :=
  ⟨(claim_C5_set_behaviour ⟨"sessions:", 100, none, 300⟩ 5 ⟨none, none⟩
      ⟨⟨none, []⟩, none, []⟩).1 (by decide),
   (claim_C5_set_behaviour ⟨"sessions:", 100, some 60, 300⟩ 5 ⟨some RedisValue.tomb, some 99⟩
      ⟨⟨none, []⟩, none, []⟩).2.1 (by decide) rfl,
   (claim_C5_set_behaviour ⟨"sessions:", 100, some 60, 300⟩ 5 ⟨none, none⟩
      ⟨⟨none, []⟩, none, []⟩).2.2 (by decide) (by simp)⟩

/-- C1: tombstone wins.  After `destroy(id, true)` the key holds the
tombstone sentinel, and any subsequent `set(id, r)` while it is present
returns `null` and leaves the stored value the tombstone; when the
record's TTL is positive the set script refuses without touching the
key state at all (with a non-positive TTL the only effect is a refresh
of the tombstone's grace expiry, the value is unchanged).  The script
itself refuses exactly on the sentinel and only otherwise writes the
new value with the given expiry. -/
theorem claim_C1_tombstone_wins (A : AdapterConfig) (now1 now2 : Int) (st0 : KeyState)
    (r : SessionData) :
    (RedisStoreAdapter.set A now2 (RedisStoreAdapter.destroy A now1 st0 true).2 r).1 =
      none ∧
    (RedisStoreAdapter.set A now2 (RedisStoreAdapter.destroy A now1 st0 true).2 r).2.value =
      some RedisValue.tomb ∧
    (0 < RedisStoreAdapter.checkTtlMilliseconds A now2 r →
      (RedisStoreAdapter.set A now2 (RedisStoreAdapter.destroy A now1 st0 true).2 r).2 =
        (RedisStoreAdapter.destroy A now1 st0 true).2) ∧
    (∀ (st : KeyState) (v : WireSession) (ttl now : Int),
      st.value = some RedisValue.tomb → setLua st v ttl now = (none, st)) ∧
    (∀ (st : KeyState) (v : WireSession) (ttl now : Int),
      st.value ≠ some RedisValue.tomb →
      setLua st v ttl now = (some "OK", ⟨some (RedisValue.data v), some (now + ttl)⟩)) := by
  have hst : (RedisStoreAdapter.destroy A now1 st0 true).2.value = some RedisValue.tomb := by
    rw [destroy_tomb_state]
  refine ⟨?_, ?_, ?_, setLua_tomb, setLua_live⟩
  · rcases le_or_lt (RedisStoreAdapter.checkTtlMilliseconds A now2 r) 0 with h | h
    · rw [set_of_ttl_nonpos A now2 _ r h]
    · rw [set_of_tomb A now2 _ r h hst]
  · rcases le_or_lt (RedisStoreAdapter.checkTtlMilliseconds A now2 r) 0 with h | h
    · rw [set_of_ttl_nonpos A now2 _ r h]
    · rw [set_of_tomb A now2 _ r h hst, hst]
  · intro h
    rw [set_of_tomb A now2 _ r h hst]

/-- C1 witness: a destroyed key refuses a fresh write with positive TTL
and keeps its state; the script facts evaluated on tombstoned and empty
keys. -/
theorem claim_C1_tombstone_wins_checks :
    (RedisStoreAdapter.set ⟨"sessions:", 100, some 60, 300⟩ 7
      (RedisStoreAdapter.destroy ⟨"sessions:", 100, some 60, 300⟩ 2 ⟨none, none⟩ true).2
      ⟨⟨none, []⟩, none, []⟩).1 = none ∧
    (RedisStoreAdapter.set ⟨"sessions:", 100, some 60, 300⟩ 7
      (RedisStoreAdapter.destroy ⟨"sessions:", 100, some 60, 300⟩ 2 ⟨none, none⟩ true).2
      ⟨⟨none, []⟩, none, []⟩).2 =
      (RedisStoreAdapter.destroy ⟨"sessions:", 100, some 60, 300⟩ 2 ⟨none, none⟩ true).2 ∧
    setLua ⟨some RedisValue.tomb, some 99⟩ ⟨⟨none, []⟩, none, []⟩ 50 7 =
      (none, ⟨some RedisValue.tomb, some 99⟩) ∧
    setLua ⟨none, none⟩ ⟨⟨none, []⟩, none, []⟩ 50 7 =
      (some "OK", ⟨some (RedisValue.data ⟨⟨none, []⟩, none, []⟩), some (7 + 50)⟩) :=
  ⟨(claim_C1_tombstone_wins ⟨"sessions:", 100, some 60, 300⟩ 2 7 ⟨none, none⟩
      ⟨⟨none, []⟩, none, []⟩).1,
   (claim_C1_tombstone_wins ⟨"sessions:", 100, some 60, 300⟩ 2 7 ⟨none, none⟩
      ⟨⟨none, []⟩, none, []⟩).2.2.1 (by decide),
   (claim_C1_tombstone_wins ⟨"sessions:", 100, some 60, 300⟩ 2 7 ⟨none, none⟩
      ⟨⟨none, []⟩, none, []⟩).2.2.2.1 ⟨some RedisValue.tomb, some 99⟩ ⟨⟨none, []⟩, none, []⟩
      50 7 rfl,
   (claim_C1_tombstone_wins ⟨"sessions:", 100, some 60, 300⟩ 2 7 ⟨none, none⟩
      ⟨⟨none, []⟩, none, []⟩).2.2.2.2 ⟨none, none⟩ ⟨⟨none, []⟩, none, []⟩ 50 7 (by simp)⟩

/-- C3: evaluation at the failing input.  With the clock at
`now = 3600000` and a live key, `touch(id, 60)` renews the key's expiry
to `now + 60000 = 3660000` but returns `new Date(60000)` — the epoch
plus the TTL, not the date at which the session will expire (the
adapter's own doc comment promises "the date when the session will
expire"; the repository's tests only pass because they pin
`Date.now()` to `0`, where the two coincide). -/
theorem claim_C3_touch_return_bug :
    (RedisStoreAdapter.touch ⟨"sessions:", 100, some 86400, 300⟩ 3600000
      ⟨some (RedisValue.data ⟨⟨none, []⟩, none, []⟩), some 7200000⟩
      (TouchTtl.seconds 60)).1 = some ⟨60000⟩ ∧
    (RedisStoreAdapter.touch ⟨"sessions:", 100, some 86400, 300⟩ 3600000
      ⟨some (RedisValue.data ⟨⟨none, []⟩, none, []⟩), some 7200000⟩
      (TouchTtl.seconds 60)).2.expiresAt = some 3660000 ∧
    JsDate.getTime ⟨60000⟩ ≠ (3660000 : Int) := by
  refine ⟨rfl, rfl, by decide⟩

/-- C2: evaluation at the failing input.  With one scan batch holding a
tombstoned key `sessions:a` followed by a live key `sessions:b`, the
`filter`-then-`reduce` in `all` indexes `keysBatch` with the position in
the **filtered** value array, so the record stored at `sessions:b` is
returned under the id `"a"` — the id of the tombstoned key — and the id
`"b"` is missing entirely. -/
theorem claim_C2_all_misalignment :
    RedisStoreAdapter.all "sessions:"
      [("sessions:a", RedisValue.tomb),
       ("sessions:b", RedisValue.data ⟨⟨none, []⟩, some 0, [("user", JSVal.string "bob")]⟩)]
      [["sessions:a", "sessions:b"]] =
      [("a", serializer.parse ⟨⟨none, []⟩, some 0, [("user", JSVal.string "bob")]⟩)] ∧
    lookupKey [("sessions:a", RedisValue.tomb),
       ("sessions:b", RedisValue.data ⟨⟨none, []⟩, some 0, [("user", JSVal.string "bob")]⟩)]
      "sessions:a" = some RedisValue.tomb ∧
    lookupKey (RedisStoreAdapter.all "sessions:"
      [("sessions:a", RedisValue.tomb),
       ("sessions:b", RedisValue.data ⟨⟨none, []⟩, some 0, [("user", JSVal.string "bob")]⟩)]
      [["sessions:a", "sessions:b"]]) "b" = none := by
  refine ⟨?_, ?_, ?_⟩ <;> rfl

/-! ## Facts about `lookupKey`, key distinctness and `deepEqual` -/

theorem lookupKey_mem {α : Type} {l : List (String × α)} {k : String} {v : α}
    (h : lookupKey l k = some v) : (k, v) ∈ l := by
  induction l with
  | nil => simp [lookupKey] at h
  | cons p rest ih =>
    obtain ⟨k', v'⟩ := p
    by_cases hk : k' = k
    · rw [lookupKey, if_pos hk] at h
      injection h with h
      subst hk; subst h
      exact List.mem_cons_self _ _
    · rw [lookupKey, if_neg hk] at h
      exact List.mem_cons_of_mem _ (ih h)

theorem lookupKey_eq_none {α : Type} {l : List (String × α)} {k : String} :
    lookupKey l k = none ↔ k ∉ fieldKeys l := by
  induction l with
  | nil => simp [lookupKey, fieldKeys]
  | cons p rest ih =>
    obtain ⟨k', v'⟩ := p
    by_cases hk : k' = k
    · subst hk; simp [lookupKey, fieldKeys]
    · simp [lookupKey, if_neg hk, fieldKeys, ih, Ne.symm hk]

theorem lookup_self {α : Type} {l : List (String × α)} {k : String} {v : α}
    (hnd : (fieldKeys l).Nodup) (hm : (k, v) ∈ l) : lookupKey l k = some v := by
  induction l with
  | nil => cases hm
  | cons p rest ih =>
    obtain ⟨k', v'⟩ := p
    have hnd' := List.nodup_cons.mp hnd
    rcases List.mem_cons.mp hm with heq | hmem
    · obtain ⟨hk, hv⟩ := Prod.mk.injEq .. ▸ heq
      rw [lookupKey, if_pos hk.symm, hv]
    · have hk : k' ≠ k := by
        intro h
        subst h
        exact hnd'.1 (List.mem_map.mpr ⟨(k', v), hmem, rfl⟩)
      rw [lookupKey, if_neg hk]
      exact ih hnd'.2 hmem

theorem nodupKeys_iff {l : List (String × JSVal)} :
    nodupKeys l = true ↔ (fieldKeys l).Nodup := by
  induction l with
  | nil => simp [nodupKeys, fieldKeys]
  | cons p rest ih =>
    obtain ⟨k, v⟩ := p
    simp [nodupKeys, fieldKeys, List.nodup_cons, ih, Option.isNone_iff_eq_none,
      lookupKey_eq_none]

theorem wfFields_mem {l : List (String × JSVal)} {k : String} {v : JSVal}
    (hw : wfFields l = true) (hm : (k, v) ∈ l) : wf v = true := by
  induction l with
  | nil => cases hm
  | cons p rest ih =>
    obtain ⟨k', v'⟩ := p
    rw [wfFields, Bool.and_eq_true] at hw
    rcases List.mem_cons.mp hm with heq | hmem
    · obtain ⟨-, hv⟩ := Prod.mk.injEq .. ▸ heq
      rw [← hv] at hw
      exact hw.1
    · exact ih hw.2 hmem

mutual

theorem deepEqual_refl (x : JSVal) (h : wf x = true) : deepEqual x x = true := by
  cases x with
  | null => rfl
  | boolean b => simp [deepEqual]
  | number n => simp [deepEqual]
  | string s => simp [deepEqual]
  | object l =>
    rw [wf, Bool.and_eq_true] at h
    rw [deepEqual, Bool.and_eq_true]
    refine ⟨by simp [Nat.beq_eq], ?_⟩
    exact deepEqualFields_of_lookup l l h.2
      (fun k v hm => lookup_self (nodupKeys_iff.mp h.1) hm)

theorem deepEqualFields_of_lookup (L l : List (String × JSVal))
    (hw : wfFields l = true)
    (hk : ∀ k v, (k, v) ∈ l → lookupKey L k = some v) :
    deepEqualFields l L = true := by
  match l with
  | [] => rfl
  | (k, v) :: rest =>
    rw [wfFields, Bool.and_eq_true] at hw
    rw [deepEqualFields, hk k v (List.mem_cons_self _ _), Bool.and_eq_true]
    exact ⟨deepEqual_refl v hw.1,
      deepEqualFields_of_lookup L rest hw.2
        (fun k' v' hm => hk k' v' (List.mem_cons_of_mem _ hm))⟩

end

theorem deepEqual_of_len_ne {a b : List (String × JSVal)} (h : a.length ≠ b.length) :
    deepEqual (JSVal.object a) (JSVal.object b) = false := by
  have hb : Nat.beq a.length b.length = false := by
    cases hc : Nat.beq a.length b.length
    · rfl
    · exact absurd (Nat.eq_of_beq_eq_true hc) h
  rw [deepEqual, hb, Bool.false_and]

theorem deepEqualFields_false_some {l L : List (String × JSVal)} {k : String}
    {v w : JSVal} (hm : (k, v) ∈ l) (hlook : lookupKey L k = some w)
    (hne : deepEqual v w = false) : deepEqualFields l L = false := by
  induction l with
  | nil => cases hm
  | cons p rest ih =>
    obtain ⟨k', v'⟩ := p
    rcases List.mem_cons.mp hm with heq | hmem
    · injection heq with hk hv
      subst hk
      subst hv
      simp only [deepEqualFields, hlook]
      rw [hne, Bool.false_and]
    · rw [deepEqualFields, ih hmem, Bool.and_false]

theorem deepEqual_prim_ne {v v' : JSVal} (hp : isPrim v = true)
    (hp' : isPrim v' = true) (hne : v ≠ v') : deepEqual v v' = false := by
  cases v <;> cases v' <;> simp_all [deepEqual, isPrim]

theorem deepEqual_of_perm {l l' : List (String × JSVal)} (hd : nodupKeys l = true)
    (hw : wfFields l = true) (hp : l.Perm l') :
    deepEqual (JSVal.object l) (JSVal.object l') = true := by
  rw [deepEqual, Bool.and_eq_true]
  refine ⟨by simp [Nat.beq_eq, hp.length_eq], ?_⟩
  have hnd' : (fieldKeys l').Nodup :=
    ((hp.map Prod.fst).nodup_iff).mp (nodupKeys_iff.mp hd)
  exact deepEqualFields_of_lookup l' l hw
    (fun k v hm => lookup_self hnd' (hp.subset hm))

theorem setField_length (l : List (String × JSVal)) (k : String) (p : List String)
    (v' : JSVal) : (setField l k p v').length = l.length := by
  induction l with
  | nil => rfl
  | cons q rest ih =>
    obtain ⟨k', w⟩ := q
    by_cases hk : k' = k
    · rw [setField, if_pos hk]
      rfl
    · rw [setField, if_neg hk]
      simp [ih]

theorem lookupKey_setField (l : List (String × JSVal)) (k : String) (p : List String)
    (v' : JSVal) :
    lookupKey (setField l k p v') k = (lookupKey l k).map (fun w => setPath w p v') := by
  induction l with
  | nil => rfl
  | cons q rest ih =>
    obtain ⟨k', w⟩ := q
    by_cases hk : k' = k
    · rw [setField, if_pos hk, lookupKey, if_pos hk, lookupKey, if_pos hk, Option.map_some']
    · rw [setField, if_neg hk, lookupKey, if_neg hk, lookupKey, if_neg hk, ih]

theorem deepEqual_setPath_ne : ∀ (p : List String) (a v v' : JSVal),
    wf a = true → getPath a p = some v → isPrim v = true → isPrim v' = true →
    v ≠ v' → deepEqual a (setPath a p v') = false := by
  intro p
  induction p with
  | nil =>
    intro a v v' _ hg hp hp' hne
    rw [getPath] at hg
    injection hg with hg
    subst hg
    rw [setPath]
    exact deepEqual_prim_ne hp hp' hne
  | cons k p ih =>
    intro a v v' hw hg hp hp' hne
    cases a with
    | null => simp [getPath] at hg
    | boolean b => simp [getPath] at hg
    | number n => simp [getPath] at hg
    | string s => simp [getPath] at hg
    | object l =>
      cases hl : lookupKey l k with
      | none => rw [getPath, hl] at hg; cases hg
      | some w =>
        rw [getPath, hl] at hg
        rw [wf, Bool.and_eq_true] at hw
        have hww : wf w = true := wfFields_mem hw.2 (lookupKey_mem hl)
        have hrec : deepEqual w (setPath w p v') = false := ih w v v' hww hg hp hp' hne
        have hfind : lookupKey (setField l k p v') k = some (setPath w p v') := by
          rw [lookupKey_setField, hl, Option.map_some']
        rw [setPath, deepEqual,
          deepEqualFields_false_some (lookupKey_mem hl) hfind hrec, Bool.and_false]

theorem eraseKey_length {l : List (String × JSVal)} {k : String}
    (h : k ∈ fieldKeys l) : (eraseKey l k).length + 1 = l.length := by
  induction l with
  | nil => simp [fieldKeys] at h
  | cons q rest ih =>
    obtain ⟨k', w⟩ := q
    by_cases hk : k' = k
    · rw [eraseKey, if_pos hk]
      rfl
    · have hmem : k ∈ fieldKeys rest := by
        rcases List.mem_cons.mp h with heq | hm
        · exact absurd heq.symm hk
        · exact hm
      rw [eraseKey, if_neg hk]
      simp [← ih hmem]

/-- C9: `deepEqual` is reflexive on every value (well-formedness —
distinct object keys — is an invariant of every constructible JS
object); it is insensitive to key insertion order; changing any nested
leaf value reached by a key path makes it false; and removing a key
from either argument, or adding a fresh key to either argument, makes
it false (the key-count check guards against extra keys in `b`). -/
theorem claim_C9_deepEqual_properties :
    (∀ x : JSVal, wf x = true → deepEqual x x = true) ∧
    (∀ l l' : List (String × JSVal), nodupKeys l = true → wfFields l = true →
      l.Perm l' → deepEqual (JSVal.object l) (JSVal.object l') = true) ∧
    (∀ (p : List String) (a v v' : JSVal), wf a = true → getPath a p = some v →
      isPrim v = true → isPrim v' = true → v ≠ v' →
      deepEqual a (setPath a p v') = false) ∧
    (∀ (l : List (String × JSVal)) (k : String), k ∈ fieldKeys l →
      deepEqual (JSVal.object l) (JSVal.object (eraseKey l k)) = false ∧
      deepEqual (JSVal.object (eraseKey l k)) (JSVal.object l) = false) ∧
    (∀ (l : List (String × JSVal)) (k : String) (v' : JSVal), k ∉ fieldKeys l →
      deepEqual (JSVal.object l) (JSVal.object (l ++ [(k, v')])) = false ∧
      deepEqual (JSVal.object (l ++ [(k, v')])) (JSVal.object l) = false) := by
  refine ⟨deepEqual_refl, fun l l' hd hw hp => deepEqual_of_perm hd hw hp,
    deepEqual_setPath_ne, ?_, ?_⟩
  · intro l k hk
    have hlen := eraseKey_length hk
    exact ⟨deepEqual_of_len_ne (by omega), deepEqual_of_len_ne (by omega)⟩
  · intro l k v' _
    have hlen : (l ++ [(k, v')]).length = l.length + 1 := by simp
    exact ⟨deepEqual_of_len_ne (by omega), deepEqual_of_len_ne (by omega)⟩

/-- C9 witness: each part of the comparator claim evaluated at concrete
values. -/
theorem claim_C9_deepEqual_properties_checks :
    deepEqual (JSVal.object [("a", JSVal.number 1)])
      (JSVal.object [("a", JSVal.number 1)]) = true ∧
    deepEqual (JSVal.object [("a", JSVal.number 1), ("b", JSVal.number 2)])
      (JSVal.object [("b", JSVal.number 2), ("a", JSVal.number 1)]) = true ∧
    deepEqual (JSVal.object [("u", JSVal.object [("x", JSVal.number 5)])])
      (setPath (JSVal.object [("u", JSVal.object [("x", JSVal.number 5)])])
        ["u", "x"] (JSVal.number 6)) = false ∧
    deepEqual (JSVal.object [("a", JSVal.number 1), ("b", JSVal.number 2)])
      (JSVal.object (eraseKey [("a", JSVal.number 1), ("b", JSVal.number 2)] "a")) =
      false ∧
    deepEqual (JSVal.object [("a", JSVal.number 1), ("b", JSVal.number 2)])
      (JSVal.object ([("a", JSVal.number 1), ("b", JSVal.number 2)] ++
        [("c", JSVal.null)])) = false :=
  ⟨claim_C9_deepEqual_properties.1 (JSVal.object [("a", JSVal.number 1)]) rfl,
   claim_C9_deepEqual_properties.2.1 [("a", JSVal.number 1), ("b", JSVal.number 2)]
     [("b", JSVal.number 2), ("a", JSVal.number 1)] rfl rfl
     (List.Perm.swap ("b", JSVal.number 2) ("a", JSVal.number 1) []),
   claim_C9_deepEqual_properties.2.2.1 ["u", "x"]
     (JSVal.object [("u", JSVal.object [("x", JSVal.number 5)])])
     (JSVal.number 5) (JSVal.number 6) rfl rfl rfl rfl
     (by intro h; injection h with h; exact absurd h (by decide)),
   (claim_C9_deepEqual_properties.2.2.2.1 [("a", JSVal.number 1), ("b", JSVal.number 2)]
     "a" (by decide)).1,
   (claim_C9_deepEqual_properties.2.2.2.2 [("a", JSVal.number 1), ("b", JSVal.number 2)]
     "c" JSVal.null (by decide)).1⟩

/-! ## The `compare` claim -/

theorem deepEqualFields_skip {xs : List (String × JSVal)} (pk : String) (pv : JSVal)
    (ys : List (String × JSVal)) (hfresh : pk ∉ fieldKeys xs) :
    deepEqualFields xs ((pk, pv) :: ys) = deepEqualFields xs ys := by
  induction xs with
  | nil => rfl
  | cons q rest ih =>
    obtain ⟨k, v⟩ := q
    rw [fieldKeys, List.map_cons, List.mem_cons, not_or] at hfresh
    rw [deepEqualFields, deepEqualFields, lookupKey, if_neg hfresh.1, ih hfresh.2]

theorem deepEqual_blank (xs ys : List (String × JSVal))
    (h1 : "cookie" ∉ fieldKeys xs) (h2 : "lastModified" ∉ fieldKeys xs) :
    deepEqual
      (JSVal.object (("cookie", JSVal.null) :: ("lastModified", JSVal.null) :: xs))
      (JSVal.object (("cookie", JSVal.null) :: ("lastModified", JSVal.null) :: ys)) =
    deepEqual (JSVal.object xs) (JSVal.object ys) := by
  have e1 : deepEqualFields
      (("cookie", JSVal.null) :: ("lastModified", JSVal.null) :: xs)
      (("cookie", JSVal.null) :: ("lastModified", JSVal.null) :: ys) =
      deepEqualFields xs ys := by
    have hc : lookupKey
        (("cookie", JSVal.null) :: ("lastModified", JSVal.null) :: ys) "cookie" =
        some JSVal.null := by
      rw [lookupKey, if_pos rfl]
    have hl : lookupKey
        (("cookie", JSVal.null) :: ("lastModified", JSVal.null) :: ys) "lastModified" =
        some JSVal.null := by
      rw [lookupKey, if_neg (by decide), lookupKey, if_pos rfl]
    rw [deepEqualFields, hc]
    rw [deepEqualFields, hl]
    show (deepEqual JSVal.null JSVal.null &&
      (deepEqual JSVal.null JSVal.null && deepEqualFields xs _)) = _
    rw [show deepEqual JSVal.null JSVal.null = true from rfl, Bool.true_and,
      Bool.true_and, deepEqualFields_skip _ _ _ h1, deepEqualFields_skip _ _ _ h2]
  rw [deepEqual, deepEqual, e1]
  rfl

/-- C6: when a record is stored at the key, `compare` returns it as
`existing`; `concurrent` is true exactly when the stored and candidate
`lastModified` timestamps differ; `consistent` is true exactly when the
application fields — both records with `lastModified` and the `cookie`
TTL metadata excluded — are deep-equal. -/
theorem claim_C6_compare_semantics (st : KeyState) (w : WireSession)
    (cand : SessionData) (hst : st.value = some (RedisValue.data w))
    (h1 : "cookie" ∉ fieldKeys cand.rest) (h2 : "lastModified" ∉ fieldKeys cand.rest) :
    (RedisStoreAdapter.compare st cand).existing = some (serializer.parse w) ∧
    ((RedisStoreAdapter.compare st cand).concurrent = true ↔
      cand.lastModified.map JsDate.getTime ≠
        (serializer.parse w).lastModified.map JsDate.getTime) ∧
    ((RedisStoreAdapter.compare st cand).consistent = true ↔
      deepEqual (JSVal.object cand.rest)
        (JSVal.object (serializer.parse w).rest) = true) := by
  have hget : RedisStoreAdapter.get st = some (serializer.parse w) := by
    simp only [RedisStoreAdapter.get, hst]
  refine ⟨?_, ?_, ?_⟩
  · simp [RedisStoreAdapter.compare, hget]
  · simp [RedisStoreAdapter.compare, hget]
  · simp only [RedisStoreAdapter.compare, hget]
    rw [blankForCompare, blankForCompare, deepEqual_blank _ _ h1 h2]

/-- C6 witness: a stored record compared against a candidate with equal
application fields and a newer `lastModified`. -/
theorem claim_C6_compare_semantics_checks :
    (RedisStoreAdapter.compare
      ⟨some (RedisValue.data ⟨⟨none, []⟩, some 5, [("user", JSVal.string "x")]⟩), some 50⟩
      ⟨⟨none, []⟩, some ⟨6⟩, [("user", JSVal.string "x")]⟩).existing =
      some (serializer.parse ⟨⟨none, []⟩, some 5, [("user", JSVal.string "x")]⟩) ∧
    ((RedisStoreAdapter.compare
      ⟨some (RedisValue.data ⟨⟨none, []⟩, some 5, [("user", JSVal.string "x")]⟩), some 50⟩
      ⟨⟨none, []⟩, some ⟨6⟩, [("user", JSVal.string "x")]⟩).concurrent = true ↔
      (some (JsDate.mk 6)).map JsDate.getTime ≠
        (serializer.parse ⟨⟨none, []⟩, some 5,
          [("user", JSVal.string "x")]⟩).lastModified.map JsDate.getTime) ∧
    ((RedisStoreAdapter.compare
      ⟨some (RedisValue.data ⟨⟨none, []⟩, some 5, [("user", JSVal.string "x")]⟩), some 50⟩
      ⟨⟨none, []⟩, some ⟨6⟩, [("user", JSVal.string "x")]⟩).consistent = true ↔
      deepEqual (JSVal.object [("user", JSVal.string "x")])
        (JSVal.object (serializer.parse ⟨⟨none, []⟩, some 5,
          [("user", JSVal.string "x")]⟩).rest) = true) :=
  claim_C6_compare_semantics
    ⟨some (RedisValue.data ⟨⟨none, []⟩, some 5, [("user", JSVal.string "x")]⟩), some 50⟩
    ⟨⟨none, []⟩, some 5, [("user", JSVal.string "x")]⟩
    ⟨⟨none, []⟩, some ⟨6⟩, [("user", JSVal.string "x")]⟩ rfl (by decide) (by decide)

/-! ## The `length` claim -/

theorem countP_lookup_eq {store : Store} (hnd : (fieldKeys store).Nodup) :
    (fieldKeys store).countP (fun k => jsLiveVal (lookupKey store k)) =
      store.countP (fun e => jsLiveVal (some e.2)) := by
  have h : ∀ e ∈ store, jsLiveVal (lookupKey store e.1) = jsLiveVal (some e.2) := by
    intro e he
    obtain ⟨k, v⟩ := e
    rw [lookup_self hnd he]
  calc (fieldKeys store).countP (fun k => jsLiveVal (lookupKey store k))
      = store.countP ((fun k => jsLiveVal (lookupKey store k)) ∘ Prod.fst) :=
        List.countP_map ..
    _ = store.countP (fun e => jsLiveVal (some e.2)) := by
        apply List.countP_congr
        intro e he
        simp only [Function.comp_apply]
        rw [h e he]

/-- C8: over a stable snapshot of the key space (each key scanned
exactly once across the batches), `length(false)` is the precise count
of keys whose stored value is present and not the tombstone sentinel,
while `length(true)` counts every key under the namespace, tombstoned
ones included. -/
theorem claim_C8_length_counts (store : Store) (batches : List (List String))
    (hnd : (fieldKeys store).Nodup)
    (hp : batches.flatten.Perm (fieldKeys store)) :
    RedisStoreAdapter.length store batches false =
      (store.filter (fun e => jsLiveVal (some e.2))).length ∧
    RedisStoreAdapter.length store batches true = store.length := by
  constructor
  · show (batches.map
      (fun b => ((mGet store b).filter jsLiveVal).length)).sum = _
    have e1 : ∀ b : List String,
        ((mGet store b).filter jsLiveVal).length =
          b.countP (fun k => jsLiveVal (lookupKey store k)) := by
      intro b
      rw [← List.countP_eq_length_filter, mGet, List.countP_map]
      rfl
    calc (batches.map (fun b => ((mGet store b).filter jsLiveVal).length)).sum
        = (batches.map (fun b =>
            b.countP (fun k => jsLiveVal (lookupKey store k)))).sum := by
          congr 1
          exact List.map_congr_left (fun b _ => e1 b)
      _ = batches.flatten.countP (fun k => jsLiveVal (lookupKey store k)) :=
          (List.countP_flatten ..).symm
      _ = (fieldKeys store).countP (fun k => jsLiveVal (lookupKey store k)) :=
          hp.countP_eq _
      _ = store.countP (fun e => jsLiveVal (some e.2)) := countP_lookup_eq hnd
      _ = (store.filter (fun e => jsLiveVal (some e.2))).length :=
          List.countP_eq_length_filter ..
  · show batches.flatten.length = _
    rw [hp.length_eq, fieldKeys, List.length_map]

/-- C8 witness: a snapshot with one live key and one tombstone, scanned
in two batches. -/
theorem claim_C8_length_counts_checks :
    RedisStoreAdapter.length
      [("sessions:a", RedisValue.tomb),
       ("sessions:b", RedisValue.data ⟨⟨none, []⟩, some 0, []⟩)]
      [["sessions:a"], ["sessions:b"]] false =
      ([("sessions:a", RedisValue.tomb),
        ("sessions:b", RedisValue.data ⟨⟨none, []⟩, some 0, []⟩)].filter
          (fun e => jsLiveVal (some e.2))).length ∧
    RedisStoreAdapter.length
      [("sessions:a", RedisValue.tomb),
       ("sessions:b", RedisValue.data ⟨⟨none, []⟩, some 0, []⟩)]
      [["sessions:a"], ["sessions:b"]] true =
      [("sessions:a", RedisValue.tomb),
       ("sessions:b", RedisValue.data ⟨⟨none, []⟩, some 0, []⟩)].length :=
  claim_C8_length_counts
    [("sessions:a", RedisValue.tomb),
     ("sessions:b", RedisValue.data ⟨⟨none, []⟩, some 0, []⟩)]
    [["sessions:a"], ["sessions:b"]] (by decide) (List.Perm.refl _)
